import Mathlib

/-!
Verification development for the save-to-play extension core:
the video catalog store, its synchronization/reconciliation engine
(`handleSyncVideos`), the request handlers of the privileged background
context (`src/background.ts`), and the content-script message listener.

Modelling conventions:
* JavaScript values reachable from the handlers are modelled by `Json`
  (what `JSON.parse` can produce) and `JsVal := Option Json`, where
  `none` models the JavaScript value `undefined`.
* A stored record is a property map `JsObj := List (String × JsVal)`
  (keys in insertion order, as in a JavaScript object).
* The clock (`new Date().toISOString()`) is an explicit parameter `now`.
* `JSON.parse` is a platform primitive, abstracted as a parameter
  `parse : String → Option Json` (`none` models a thrown SyntaxError).
* `encodeURIComponent` composed with JavaScript string conversion is a
  platform primitive, abstracted as a parameter `enc : JsVal → String`.
* The record store service (`dbService`, whose source file is not part
  of the analysed sources) is modelled from the spec, see `dbAddVideo`.
-/

/-- Values producible by JSON parsing (numbers simplified to `Int`;
their numeric value is never inspected by the embedded code). -/
inductive Json where
  | null : Json
  | bool : Bool → Json
  | num : Int → Json
  | str : String → Json
  | arr : List Json → Json
  | obj : List (String × Json) → Json
deriving Repr

/-- A JavaScript value that may also be `undefined` (`none`). -/
abbrev JsVal := Option Json

/-- A JavaScript object as a property map in insertion order. -/
abbrev JsObj := List (String × JsVal)

/-- First binding of a key in a parsed JSON object's field list. -/
def lookupJsonField (fields : List (String × Json)) (k : String) : JsVal :=
  match fields with
  | [] => none
  | (k', v) :: rest => if k' = k then some v else lookupJsonField rest k

/-- Property access `j.k` on a parsed JSON value: defined for objects,
`undefined` for other non-null values. (On `null` the real access throws;
every place the embedding reads a field of a possibly-null descriptor
feeds the result into a store operation that fails on a non-string key,
which models the same caught per-descriptor failure.) -/
def getFieldJ (j : Json) (k : String) : JsVal :=
  match j with
  | Json.obj fields => lookupJsonField fields k
  | _ => none

/-- Property access `o.k` on a property map; a missing key is `undefined`. -/
def getFieldV (o : JsObj) (k : String) : JsVal :=
  match o with
  | [] => none
  | (k', v) :: rest => if k' = k then v else getFieldV rest k

/-- JavaScript truthiness of a value. -/
def truthy (v : JsVal) : Bool :=
  match v with
  | none => false
  | some Json.null => false
  | some (Json.bool b) => b
  | some (Json.num n) => n != 0
  | some (Json.str s) => s != ""
  | some (Json.arr _) => true
  | some (Json.obj _) => true

/-- Set property `k` of object `o` to `v`: replace in place when the key
exists (JavaScript keeps the original insertion position), else append. -/
def setField (o : JsObj) (k : String) (v : JsVal) : JsObj :=
  match o with
  | [] => [(k, v)]
  | (k', v') :: rest =>
      if k' = k then (k', v) :: rest else (k', v') :: setField rest k v

/-- The record store: records keyed by their `id` string. -/
abbrev Store := List (String × JsObj)

/-- Keys currently present in the store. -/
def storeKeys (s : Store) : List String := s.map (·.1)

/-- Lookup by primary key (first entry with that key). -/
def getVideo (s : Store) (k : String) : Option JsObj :=
  match s with
  | [] => none
  | (k', v) :: rest => if k' = k then some v else getVideo rest k

/-- Unconditional insert-or-replace keyed by `id` (spec §4.1 `put`):
replace the existing entry in place, else append. -/
def putVideo (s : Store) (k : String) (v : JsObj) : Store :=
  match s with
  | [] => [(k, v)]
  | (k', v') :: rest =>
      if k' = k then (k, v) :: rest else (k', v') :: putVideo rest k v

/-- Modelled from the spec: `dbService.addVideo` (the db.service source
file is not among the analysed sources). Spec §4.2: implemented as `put`,
an unconditional insert-or-replace keyed by `id`; §3: `id` is a string
primary key; §7: a record whose key field is missing or unusable raises a
StorageError (modelled as `Except.error`). -/
def dbAddVideo (s : Store) (v : JsObj) : Except String Store :=
  match getFieldV v "id" with
  | some (Json.str k) => Except.ok (putVideo s k v)
  | _ => Except.error "Data provided to an operation does not meet requirements"

/-- Modelled from the spec: `dbService.updateVideo`, spec §4.2
"implemented identically to addVideo - both are upserts". -/
def dbUpdateVideo (s : Store) (v : JsObj) : Except String Store :=
  dbAddVideo s v

/-- Modelled from the spec: `dbService.getVideo(id)`; a get with a key
that is not a string (e.g. the `undefined` id of a malformed descriptor)
raises, modelling the store's invalid-key failure (spec §7). -/
def dbGetVideo (s : Store) (idVal : JsVal) : Except String (Option JsObj) :=
  match idVal with
  | some (Json.str k) => Except.ok (getVideo s k)
  | _ => Except.error "Data provided to an operation does not meet requirements"

/-- Modelled from the spec: `dbService.getVideoByUrl(url)` returns the
first record whose `url` field strictly equals the given string
(spec §4.1; strict equality with a string only matches a string field). -/
def dbGetVideoByUrl (s : Store) (url : String) : Option JsObj :=
  (s.find? (fun e =>
    match getFieldV e.2 "url" with
    | some (Json.str u) => u == url
    | _ => false)).map (·.2)

/-- Modelled from the spec: `dbService.getAllVideos()` returns the
stored records (spec §4.1 `getAll`). -/
def dbGetAllVideos (s : Store) : List JsObj :=
  s.map (·.2)

/-- A response sent through `sendResponse`; absent fields are `none`.
(The `debugInfo` diagnostic payload of some responses is not modelled.) -/
structure Response where
  success : Bool
  message : Option String := none
  error : Option String := none
  needsManualPaste : Option Bool := none
  video : Option (Option JsObj) := none
  videos : Option (List JsObj) := none
  videosAdded : Option Nat := none
  videosUpdated : Option Nat := none
  text : Option String := none
deriving Repr

/-- Embedding of `handleSaveVideo` (background.ts:48-82). Result:
the response, the store after the call, and the url opened through the
`chrome.tabs.create` side channel (`none` when no tab was opened). -/
def handleSaveVideo (enc : JsVal → String) (now : String)
    (videoInfo : JsObj) (s : Store) : Response × Store × Option String :=
  if truthy (getFieldV videoInfo "url") && truthy (getFieldV videoInfo "id") then
    -- direct save from content script - just save to database
    match dbAddVideo s videoInfo with
    | Except.ok s' =>
        ({ success := true, message := some "Video saved to database" }, s', none)
    | Except.error e =>
        ({ success := false, error := some e }, s, none)
  else
    -- Play app save: open the Play app, then also save to the database
    let playUrl := "play://add?url=" ++ enc (getFieldV videoInfo "url")
    let video := setField (setField videoInfo "savedAt" (some (Json.str now)))
      "lastSyncedAt" (some (Json.str now))
    match dbAddVideo s video with
    | Except.ok s' =>
        ({ success := true, message := some "Video saved to Play" }, s', some playUrl)
    | Except.error e =>
        ({ success := false, error := some e }, s, some playUrl)

/-- Normalization of the parsed payload (background.ts:299-304): an array
is used as the list, a non-null object is wrapped as a one-element list,
every other shape leaves the initial empty list. -/
def normalizePayload (parsed : Json) : List Json :=
  match parsed with
  | Json.arr xs => xs
  | Json.obj fields => [Json.obj fields]
  | _ => []

/-- Conversion of one Play descriptor to the internal record shape
(background.ts:331-353), a 1-to-1 field mapping except that `saved_at`
is taken from the descriptor's `date_added` and `last_synced_at` is
stamped with the current time. -/
def convertPlayVideo (now : String) (playVideo : Json) : JsObj :=
  [ ("id", getFieldJ playVideo "id"),
    ("title", getFieldJ playVideo "title"),
    ("description", getFieldJ playVideo "description"),
    ("url", getFieldJ playVideo "url"),
    ("date_published", getFieldJ playVideo "date_published"),
    ("second_url", getFieldJ playVideo "second_url"),
    ("channel", getFieldJ playVideo "channel"),
    ("duration_seconds", getFieldJ playVideo "duration_seconds"),
    ("source", getFieldJ playVideo "source"),
    ("notes", getFieldJ playVideo "notes"),
    ("tags", getFieldJ playVideo "tags"),
    ("artwork_url_high_res", getFieldJ playVideo "artwork_url_high_res"),
    ("is_new", getFieldJ playVideo "is_new"),
    ("star_rating", getFieldJ playVideo "star_rating"),
    ("duration", getFieldJ playVideo "duration"),
    ("artwork_url", getFieldJ playVideo "artwork_url"),
    ("date_watched", getFieldJ playVideo "date_watched"),
    ("date_added", getFieldJ playVideo "date_added"),
    ("start_at_seconds", getFieldJ playVideo "start_at_seconds"),
    ("saved_at", getFieldJ playVideo "date_added"),
    ("last_synced_at", some (Json.str now)) ]

/-- One iteration of the sync loop (background.ts:328-368): convert the
descriptor, look its id up, upsert, and count; any store failure for this
descriptor is caught and only logged, leaving state and counts unchanged. -/
def syncStep (now : String) (acc : Store × Nat × Nat) (playVideo : Json) :
    Store × Nat × Nat :=
  let video := convertPlayVideo now playVideo
  match dbGetVideo acc.1 (getFieldJ playVideo "id") with
  | Except.error _ => acc
  | Except.ok (some _) =>
      match dbUpdateVideo acc.1 video with
      | Except.ok s' => (s', acc.2.1, acc.2.2 + 1)
      | Except.error _ => acc
  | Except.ok none =>
      match dbAddVideo acc.1 video with
      | Except.ok s' => (s', acc.2.1 + 1, acc.2.2)
      | Except.error _ => acc

/-- Embedding of `handleSyncVideos` (background.ts:84-383) downstream of
payload acquisition: `clipboardText` is the text produced by the
acquisition strategies (`""` when every strategy failed, since the code
accumulates into a string initialized to `""`). Result: response and
store after the call. -/
def handleSyncVideos (parse : String → Option Json) (now : String)
    (clipboardText : String) (s : Store) : Response × Store :=
  if clipboardText = "" then
    ({ success := false,
       error := some "Could not read clipboard from any source. Please use manual paste.",
       needsManualPaste := some true }, s)
  else if clipboardText = "" then
    -- second guard in the source (background.ts:286-294); unreachable
    ({ success := false,
       error := some "No data found in clipboard. Please ensure your shortcut copies JSON data.",
       needsManualPaste := some true }, s)
  else
    match parse clipboardText with
    | none =>
        ({ success := false,
           error := some "Invalid JSON data in clipboard. Please check your shortcut output.",
           needsManualPaste := some true }, s)
    | some parsed =>
        let playVideos := normalizePayload parsed
        if playVideos.isEmpty then
          ({ success := false,
             error := some "No video data found in clipboard.",
             needsManualPaste := some true }, s)
        else
          let r := playVideos.foldl (syncStep now) (s, 0, 0)
          ({ success := true,
             message := some ("Synced " ++ toString r.2.1 ++ " new videos and updated "
               ++ toString r.2.2 ++ " existing videos."),
             videosAdded := some r.2.1,
             videosUpdated := some r.2.2 }, r.1)

/-- The response built by the top-level catch of `handleSyncVideos`
(background.ts:376-382) for an unexpected error with message `msg`. -/
def syncCatchResponse (msg : String) : Response :=
  { success := false, error := some msg, needsManualPaste := some true }

/-- Embedding of `handleGetVideoInfo` (background.ts:385-398), over the
`dbService.getVideoByUrl` capability `db` (an `Except.error` models a
thrown storage failure caught by the handler). -/
def handleGetVideoInfo (db : String → Except String (Option JsObj))
    (url : String) : Response :=
  match db url with
  | Except.ok v => { success := true, video := some v }
  | Except.error e => { success := false, error := some e }

/-- Embedding of `handleGetVideoByUrl` (background.ts:400-413), over the
same `dbService.getVideoByUrl` capability. -/
def handleGetVideoByUrl (db : String → Except String (Option JsObj))
    (url : String) : Response :=
  match db url with
  | Except.ok v => { success := true, video := some v }
  | Except.error e => { success := false, error := some e }

/-- Embedding of `handleGetAllVideos` (background.ts:415-427), over the
`dbService.getAllVideos` capability. -/
def handleGetAllVideos (db : Unit → Except String (List JsObj)) : Response :=
  match db () with
  | Except.ok vs => { success := true, videos := some vs }
  | Except.error e => { success := false, error := some e }

/-- An RPC request; absent payload fields default to `undefined`-ish. -/
structure Request where
  action : String
  data : JsObj := []
  url : String := ""
deriving Repr

/-- Embedding of the background `chrome.runtime.onMessage` listener
(background.ts:15-45): the sender check, then the action dispatch.
Result: the response passed to `sendResponse` (`none` when the listener
returns without responding), the store after the call, and the url
opened through the tab side channel, if any. -/
def backgroundOnMessage (extensionId : String)
    (parse : String → Option Json) (now : String) (clipboardText : String)
    (enc : JsVal → String) (senderId : String) (req : Request) (s : Store) :
    Option Response × Store × Option String :=
  if senderId ≠ extensionId then
    -- console.warn and plain return: no response is sent
    (none, s, none)
  else
    match req.action with
    | "saveVideo" =>
        let r := handleSaveVideo enc now req.data s
        (some r.1, r.2.1, r.2.2)
    | "syncVideos" =>
        let r := handleSyncVideos parse now clipboardText s
        (some r.1, r.2, none)
    | "getVideoInfo" =>
        (some (handleGetVideoInfo (fun u => Except.ok (dbGetVideoByUrl s u)) req.url), s, none)
    | "getVideoByUrl" =>
        (some (handleGetVideoByUrl (fun u => Except.ok (dbGetVideoByUrl s u)) req.url), s, none)
    | "getAllVideos" =>
        (some (handleGetAllVideos (fun _ => Except.ok (dbGetAllVideos s))), s, none)
    | _ =>
        (some { success := false, error := some "Unknown action" }, s, none)

/-- Embedding of the content script's `handleReadClipboard`
(content script lines 692-734), over the clipboard-read capability
(`Except.error` models both an unavailable clipboard API and a thrown
read failure; the `debugInfo` payload is not modelled). -/
def handleReadClipboard (clip : Except String String) : Response :=
  match clip with
  | Except.ok t => { success := true, text := some t }
  | Except.error e => { success := false, error := some e }

/-- Embedding of the content script's `chrome.runtime.onMessage`
listener (content script lines 675-688): a mismatched sender is answered
with the Unauthorized response; otherwise only `readClipboard` is
serviced. -/
def contentOnMessage (extensionId : String) (clip : Except String String)
    (senderId : String) (req : Request) : Option Response :=
  if senderId ≠ extensionId then
    some { success := false, error := some "Unauthorized sender" }
  else
    match req.action with
    | "readClipboard" => some (handleReadClipboard clip)
    | _ => some { success := false, error := some "Unknown action" }

/-- Spec-side shorthand: the primary key under which the sync loop would
store a descriptor - present exactly when the descriptor carries a
string `id` (a descriptor without one fails its store lookup and is
skipped). -/
def descriptorKey (playVideo : Json) : Option String :=
  match getFieldJ playVideo "id" with
  | some (Json.str k) => some k
  | _ => none

/-- Spec-side shorthand: the number of descriptors with a usable id. -/
def countValid (l : List Json) : Nat :=
  l.countP (fun pv => (descriptorKey pv).isSome)

/-- Spec-side shorthand: the reconciliation loop of `handleSyncVideos`
as a fold over the descriptor list. -/
def runSync (now : String) (l : List Json) (acc : Store × Nat × Nat) :
    Store × Nat × Nat :=
  l.foldl (syncStep now) acc

/-- Spec-side shorthand: the last descriptor in `l` that targets key `k`
(the one whose record survives the sequential reconciliation). -/
def lastDescFor (l : List Json) (k : String) : Option Json :=
  l.reverse.find? (fun pv => descriptorKey pv == some k)

theorem storeKeys_nil : storeKeys [] = [] := rfl

theorem storeKeys_cons (e : String × JsObj) (s : Store) :
    storeKeys (e :: s) = e.1 :: storeKeys s := rfl

theorem getVideo_putVideo_self (s : Store) (k : String) (v : JsObj) :
    getVideo (putVideo s k v) k = some v := by
  induction s with
  | nil => simp [putVideo, getVideo]
  | cons e rest ih =>
      obtain ⟨k', v'⟩ := e
      by_cases h : k' = k
      · subst h; simp [putVideo, getVideo]
      · simp [putVideo, getVideo, h, ih]

theorem getVideo_putVideo_ne (s : Store) (k k' : String) (v : JsObj)
    (h : k' ≠ k) : getVideo (putVideo s k v) k' = getVideo s k' := by
  induction s with
  | nil => simp [putVideo, getVideo, Ne.symm h]
  | cons e rest ih =>
      obtain ⟨k₀, v₀⟩ := e
      by_cases h0 : k₀ = k
      · subst h0; simp [putVideo, getVideo, Ne.symm h]
      · simp [putVideo, getVideo, h0, ih]

theorem storeKeys_putVideo_of_mem (s : Store) (k : String) (v : JsObj)
    (h : k ∈ storeKeys s) : storeKeys (putVideo s k v) = storeKeys s := by
  induction s with
  | nil => simp [storeKeys] at h
  | cons e rest ih =>
      obtain ⟨k₀, v₀⟩ := e
      by_cases h0 : k₀ = k
      · subst h0
        rw [show putVideo ((k₀, v₀) :: rest) k₀ v = (k₀, v) :: rest from by
          simp [putVideo]]
        rw [storeKeys_cons, storeKeys_cons]
      · rcases List.mem_cons.mp h with h1 | h2
        · exact absurd h1.symm h0
        · rw [show putVideo ((k₀, v₀) :: rest) k v = (k₀, v₀) :: putVideo rest k v
            from by simp [putVideo, h0]]
          rw [storeKeys_cons, storeKeys_cons, ih h2]

theorem storeKeys_putVideo_of_not_mem (s : Store) (k : String) (v : JsObj)
    (h : k ∉ storeKeys s) : storeKeys (putVideo s k v) = storeKeys s ++ [k] := by
  induction s with
  | nil => rfl
  | cons e rest ih =>
      obtain ⟨k₀, v₀⟩ := e
      rw [storeKeys_cons] at h
      have h0 : ¬ k₀ = k := fun hh => h (hh ▸ List.mem_cons_self k₀ _)
      have h2 : k ∉ storeKeys rest := fun hh => h (List.mem_cons_of_mem _ hh)
      rw [show putVideo ((k₀, v₀) :: rest) k v = (k₀, v₀) :: putVideo rest k v
        from by simp [putVideo, h0]]
      rw [storeKeys_cons, storeKeys_cons, ih h2, List.cons_append]

theorem mem_storeKeys_putVideo_iff (s : Store) (k k' : String) (v : JsObj) :
    k' ∈ storeKeys (putVideo s k v) ↔ k' ∈ storeKeys s ∨ k' = k := by
  by_cases h : k ∈ storeKeys s
  · rw [storeKeys_putVideo_of_mem s k v h]
    constructor
    · exact Or.inl
    · rintro (h1 | h1)
      · exact h1
      · exact h1 ▸ h
  · rw [storeKeys_putVideo_of_not_mem s k v h, List.mem_append,
      List.mem_singleton]

theorem nodup_storeKeys_putVideo (s : Store) (k : String) (v : JsObj)
    (h : (storeKeys s).Nodup) : (storeKeys (putVideo s k v)).Nodup := by
  by_cases hm : k ∈ storeKeys s
  · rw [storeKeys_putVideo_of_mem s k v hm]; exact h
  · rw [storeKeys_putVideo_of_not_mem s k v hm]
    exact List.Nodup.append h (List.nodup_singleton k)
      (by simpa [List.disjoint_singleton] using hm)

theorem getVideo_eq_none_iff (s : Store) (k : String) :
    getVideo s k = none ↔ k ∉ storeKeys s := by
  induction s with
  | nil => simp [getVideo, storeKeys]
  | cons e rest ih =>
      obtain ⟨k₀, v₀⟩ := e
      by_cases h0 : k₀ = k
      · subst h0; simp [getVideo, storeKeys]
      · simp [getVideo, storeKeys, h0, ih, Ne.symm h0]

theorem getVideo_isSome_of_mem (s : Store) (k : String)
    (h : k ∈ storeKeys s) : (getVideo s k).isSome := by
  rcases hg : getVideo s k with _ | w
  · exact absurd ((getVideo_eq_none_iff s k).mp hg) (not_not_intro h)
  · rfl

theorem store_eq_of_keys_and_lookup (s : Store) :
    ∀ t : Store, (storeKeys s).Nodup → storeKeys s = storeKeys t →
      (∀ k, getVideo s k = getVideo t k) → s = t := by
  induction s with
  | nil =>
      intro t _ hk _
      cases t with
      | nil => rfl
      | cons e t' => simp [storeKeys] at hk
  | cons e s' ih =>
      intro t hnd hk hl
      obtain ⟨k₀, v₀⟩ := e
      cases t with
      | nil => simp [storeKeys] at hk
      | cons e' t' =>
          obtain ⟨k₁, v₁⟩ := e'
          rw [storeKeys_cons, storeKeys_cons] at hk
          injection hk with hk0 hk'
          have hk0' : k₀ = k₁ := hk0
          rw [storeKeys_cons] at hnd
          rcases List.nodup_cons.mp hnd with ⟨hnm, hnd'⟩
          have hnm' : k₀ ∉ storeKeys s' := hnm
          have hv : v₀ = v₁ := by
            have := hl k₀
            rw [getVideo, getVideo, if_pos rfl, if_pos hk0'.symm] at this
            exact Option.some.inj this
          have ht' : s' = t' := by
            refine ih t' hnd' hk' ?_
            intro k
            by_cases hkk : k = k₀
            · subst hkk
              have hs : getVideo s' k = none := (getVideo_eq_none_iff s' k).mpr hnm'
              have htn : getVideo t' k = none := by
                refine (getVideo_eq_none_iff t' k).mpr ?_
                rw [← hk']; exact hnm'
              rw [hs, htn]
            · have := hl k
              rw [getVideo, getVideo, if_neg (fun hh => hkk hh.symm),
                if_neg (fun hh => hkk (by rw [hk0']; exact hh.symm))] at this
              exact this
          rw [hk0', hv, ht']

theorem getFieldV_convert_id (now : String) (pv : Json) :
    getFieldV (convertPlayVideo now pv) "id" = getFieldJ pv "id" := rfl

theorem getFieldV_convert_saved_at (now : String) (pv : Json) :
    getFieldV (convertPlayVideo now pv) "saved_at" = getFieldJ pv "date_added" := rfl

theorem getFieldV_convert_is_new (now : String) (pv : Json) :
    getFieldV (convertPlayVideo now pv) "is_new" = getFieldJ pv "is_new" := rfl

theorem descriptorKey_eq_some_iff (pv : Json) (k : String) :
    descriptorKey pv = some k ↔ getFieldJ pv "id" = some (Json.str k) := by
  unfold descriptorKey
  cases h : getFieldJ pv "id" with
  | none => simp
  | some j => cases j <;> simp

theorem descriptorKey_eq_none_of (pv : Json)
    (h : ∀ k, getFieldJ pv "id" ≠ some (Json.str k)) : descriptorKey pv = none := by
  unfold descriptorKey
  cases hh : getFieldJ pv "id" with
  | none => rfl
  | some j =>
      cases j with
      | str s => exact absurd hh (h s)
      | null => rfl
      | bool b => rfl
      | num n => rfl
      | arr xs => rfl
      | obj fs => rfl

theorem syncStep_key_none (now : String) (acc : Store × Nat × Nat) (pv : Json)
    (h : descriptorKey pv = none) : syncStep now acc pv = acc := by
  unfold descriptorKey at h
  cases hh : getFieldJ pv "id" with
  | none => simp [syncStep, dbGetVideo, hh]
  | some j =>
      rw [hh] at h
      cases j with
      | str s => simp at h
      | null => simp [syncStep, dbGetVideo, hh]
      | bool b => simp [syncStep, dbGetVideo, hh]
      | num n => simp [syncStep, dbGetVideo, hh]
      | arr xs => simp [syncStep, dbGetVideo, hh]
      | obj fs => simp [syncStep, dbGetVideo, hh]

theorem syncStep_update (now : String) (acc : Store × Nat × Nat) (pv : Json)
    (k : String) (w : JsObj) (h : descriptorKey pv = some k)
    (hgv : getVideo acc.1 k = some w) :
    syncStep now acc pv =
      (putVideo acc.1 k (convertPlayVideo now pv), acc.2.1, acc.2.2 + 1) := by
  have hid : getFieldJ pv "id" = some (Json.str k) :=
    (descriptorKey_eq_some_iff pv k).mp h
  simp [syncStep, dbGetVideo, hid, hgv, dbUpdateVideo, dbAddVideo,
    getFieldV_convert_id]

theorem syncStep_add (now : String) (acc : Store × Nat × Nat) (pv : Json)
    (k : String) (h : descriptorKey pv = some k)
    (hgv : getVideo acc.1 k = none) :
    syncStep now acc pv =
      (putVideo acc.1 k (convertPlayVideo now pv), acc.2.1 + 1, acc.2.2) := by
  have hid : getFieldJ pv "id" = some (Json.str k) :=
    (descriptorKey_eq_some_iff pv k).mp h
  simp [syncStep, dbGetVideo, hid, hgv, dbUpdateVideo, dbAddVideo,
    getFieldV_convert_id]

theorem syncStep_store_key_some (now : String) (acc : Store × Nat × Nat)
    (pv : Json) (k : String) (h : descriptorKey pv = some k) :
    (syncStep now acc pv).1 = putVideo acc.1 k (convertPlayVideo now pv) := by
  cases hgv : getVideo acc.1 k with
  | none => rw [syncStep_add now acc pv k h hgv]
  | some w => rw [syncStep_update now acc pv k w h hgv]

theorem runSync_nil (now : String) (acc : Store × Nat × Nat) :
    runSync now [] acc = acc := rfl

theorem runSync_cons (now : String) (pv : Json) (l : List Json)
    (acc : Store × Nat × Nat) :
    runSync now (pv :: l) acc = runSync now l (syncStep now acc pv) := rfl

theorem lastDescFor_cons (pv : Json) (l : List Json) (k : String) :
    lastDescFor (pv :: l) k =
      (lastDescFor l k).or
        (if descriptorKey pv == some k then some pv else none) := by
  unfold lastDescFor
  rw [List.reverse_cons, List.find?_append, List.find?_singleton]

theorem getVideo_runSync (now : String) (l : List Json) :
    ∀ (acc : Store × Nat × Nat) (k : String),
      getVideo (runSync now l acc).1 k =
        match lastDescFor l k with
        | some pv => some (convertPlayVideo now pv)
        | none => getVideo acc.1 k := by
  induction l with
  | nil => intro acc k; rw [runSync_nil]; rfl
  | cons pv l ih =>
      intro acc k
      rw [runSync_cons, ih (syncStep now acc pv) k, lastDescFor_cons]
      cases hl : lastDescFor l k with
      | some pv' => rfl
      | none =>
          cases hk : descriptorKey pv with
          | none => rw [syncStep_key_none now acc pv hk]; rfl
          | some k' =>
              by_cases hkk : k' = k
              · subst hkk
                rw [syncStep_store_key_some now acc pv k' hk]
                simp [getVideo_putVideo_self]
              · rw [syncStep_store_key_some now acc pv k' hk,
                  getVideo_putVideo_ne acc.1 k' k _ (fun hh => hkk hh.symm)]
                have hb : (k' == k) = false := beq_eq_false_iff_ne.mpr hkk
                simp [hb]

theorem storeKeys_subset_syncStep (now : String) (acc : Store × Nat × Nat)
    (pv : Json) (k' : String) (hm : k' ∈ storeKeys acc.1) :
    k' ∈ storeKeys (syncStep now acc pv).1 := by
  cases hk : descriptorKey pv with
  | none => rw [syncStep_key_none now acc pv hk]; exact hm
  | some k =>
      rw [syncStep_store_key_some now acc pv k hk]
      exact (mem_storeKeys_putVideo_iff _ _ _ _).mpr (Or.inl hm)

theorem mem_storeKeys_runSync_mono (now : String) (l : List Json) :
    ∀ (acc : Store × Nat × Nat) (k' : String), k' ∈ storeKeys acc.1 →
      k' ∈ storeKeys (runSync now l acc).1 := by
  induction l with
  | nil => intro acc k' h; rw [runSync_nil]; exact h
  | cons pv l ih =>
      intro acc k' h
      rw [runSync_cons]
      exact ih _ _ (storeKeys_subset_syncStep now acc pv k' h)

theorem key_mem_runSync (now : String) (l : List Json) :
    ∀ (acc : Store × Nat × Nat) (pv : Json) (k : String),
      pv ∈ l → descriptorKey pv = some k →
      k ∈ storeKeys (runSync now l acc).1 := by
  induction l with
  | nil => intro acc pv k h _; exact absurd h (List.not_mem_nil pv)
  | cons pv' l ih =>
      intro acc pv k hm hk
      rw [runSync_cons]
      rcases List.mem_cons.mp hm with h1 | h2
      · subst h1
        refine mem_storeKeys_runSync_mono now l _ k ?_
        rw [syncStep_store_key_some now acc pv k hk]
        exact (mem_storeKeys_putVideo_iff _ _ _ _).mpr (Or.inr rfl)
      · exact ih _ pv k h2 hk

theorem storeKeys_runSync_all_mem (now : String) (l : List Json) :
    ∀ acc : Store × Nat × Nat,
      (∀ pv ∈ l, ∀ k, descriptorKey pv = some k → k ∈ storeKeys acc.1) →
      storeKeys (runSync now l acc).1 = storeKeys acc.1 := by
  induction l with
  | nil => intro acc _; rw [runSync_nil]
  | cons pv l ih =>
      intro acc hall
      rw [runSync_cons]
      cases hk : descriptorKey pv with
      | none =>
          rw [syncStep_key_none now acc pv hk]
          exact ih acc (fun pv' h' k hk' => hall pv' (List.mem_cons_of_mem _ h') k hk')
      | some k =>
          have hmem : k ∈ storeKeys acc.1 := hall pv (List.mem_cons_self _ _) k hk
          have hkeys : storeKeys (syncStep now acc pv).1 = storeKeys acc.1 := by
            rw [syncStep_store_key_some now acc pv k hk]
            exact storeKeys_putVideo_of_mem _ _ _ hmem
          have hall' : ∀ pv' ∈ l, ∀ k', descriptorKey pv' = some k' →
              k' ∈ storeKeys (syncStep now acc pv).1 := by
            intro pv' h' k' hk'
            rw [hkeys]
            exact hall pv' (List.mem_cons_of_mem _ h') k' hk'
          rw [ih (syncStep now acc pv) hall', hkeys]

theorem nodup_storeKeys_runSync (now : String) (l : List Json) :
    ∀ acc : Store × Nat × Nat, (storeKeys acc.1).Nodup →
      (storeKeys (runSync now l acc).1).Nodup := by
  induction l with
  | nil => intro acc h; rw [runSync_nil]; exact h
  | cons pv l ih =>
      intro acc h
      rw [runSync_cons]
      refine ih _ ?_
      cases hk : descriptorKey pv with
      | none => rw [syncStep_key_none now acc pv hk]; exact h
      | some k =>
          rw [syncStep_store_key_some now acc pv k hk]
          exact nodup_storeKeys_putVideo _ _ _ h

theorem runSync_counts_all_mem (now : String) (l : List Json) :
    ∀ acc : Store × Nat × Nat,
      (∀ pv ∈ l, ∀ k, descriptorKey pv = some k → k ∈ storeKeys acc.1) →
      (runSync now l acc).2 = (acc.2.1, acc.2.2 + countValid l) := by
  induction l with
  | nil => intro acc _; rw [runSync_nil]; simp [countValid]
  | cons pv l ih =>
      intro acc hall
      rw [runSync_cons]
      cases hk : descriptorKey pv with
      | none =>
          rw [syncStep_key_none now acc pv hk,
            ih acc (fun pv' h' k hk' => hall pv' (List.mem_cons_of_mem _ h') k hk')]
          simp [countValid, List.countP_cons, hk]
      | some k =>
          have hmem : k ∈ storeKeys acc.1 := hall pv (List.mem_cons_self _ _) k hk
          have hsome := getVideo_isSome_of_mem acc.1 k hmem
          rcases hgv : getVideo acc.1 k with _ | w
          · rw [hgv] at hsome; simp at hsome
          · rw [syncStep_update now acc pv k w hk hgv]
            have hall' : ∀ pv' ∈ l, ∀ k', descriptorKey pv' = some k' →
                k' ∈ storeKeys
                  (putVideo acc.1 k (convertPlayVideo now pv), acc.2.1, acc.2.2 + 1).1 := by
              intro pv' h' k' hk'
              exact (mem_storeKeys_putVideo_iff _ _ _ _).mpr
                (Or.inl (hall pv' (List.mem_cons_of_mem _ h') k' hk'))
            rw [ih _ hall']
            simp [countValid, List.countP_cons, hk, Prod.ext_iff]
            omega

theorem getFieldV_setField_self (o : JsObj) (k : String) (v : JsVal) :
    getFieldV (setField o k v) k = v := by
  induction o with
  | nil => simp [setField, getFieldV]
  | cons e rest ih =>
      obtain ⟨k', v'⟩ := e
      by_cases h : k' = k
      · subst h; simp [setField, getFieldV]
      · simp [setField, getFieldV, h, ih]

theorem getFieldV_setField_ne (o : JsObj) (k k' : String) (v : JsVal)
    (h : k' ≠ k) : getFieldV (setField o k v) k' = getFieldV o k' := by
  induction o with
  | nil => simp [setField, getFieldV, Ne.symm h]
  | cons e rest ih =>
      obtain ⟨k₀, v₀⟩ := e
      by_cases h0 : k₀ = k
      · subst h0; simp [setField, getFieldV, Ne.symm h]
      · simp [setField, getFieldV, h0, ih]

theorem syncStep_total_key_some (now : String) (acc : Store × Nat × Nat)
    (pv : Json) (k : String) (h : descriptorKey pv = some k) :
    (syncStep now acc pv).1 = putVideo acc.1 k (convertPlayVideo now pv) ∧
    (syncStep now acc pv).2.1 + (syncStep now acc pv).2.2 =
      acc.2.1 + acc.2.2 + 1 := by
  cases hgv : getVideo acc.1 k with
  | some w =>
      rw [syncStep_update now acc pv k w h hgv]
      exact ⟨rfl, by simp [Nat.add_assoc]⟩
  | none =>
      rw [syncStep_add now acc pv k h hgv]
      exact ⟨rfl, by simp [Nat.add_right_comm]⟩

/-- C5: for every payload text that is not valid JSON, `handleSyncVideos`
responds success:false with the manual-paste flag set, no partial parse
result is used, and the record store is returned unchanged. -/
theorem c5_sync_invalid_json_rejected
    (parse : String → Option Json) (now clipboardText : String) (s : Store)
    (ht : clipboardText ≠ "") (hp : parse clipboardText = none) :
    handleSyncVideos parse now clipboardText s =
      ({ success := false,
         error := some "Invalid JSON data in clipboard. Please check your shortcut output.",
         needsManualPaste := some true }, s) := by
  simp [handleSyncVideos, ht, hp]

/-- Witness for C5 at the concrete text "not json" on the empty store. -/
theorem c5_sync_invalid_json_rejected_witness :
    handleSyncVideos (fun _ => none) "2024-01-01T00:00:00.000Z" "not json" [] =
      ({ success := false,
         error := some "Invalid JSON data in clipboard. Please check your shortcut output.",
         needsManualPaste := some true }, []) :=
  c5_sync_invalid_json_rejected (fun _ => none) "2024-01-01T00:00:00.000Z"
    "not json" [] (by decide) rfl

/-- C8: payload normalization is exhaustive - an array is used unchanged,
a single object becomes a one-element list, every other JSON shape yields
the empty list, and an empty normalized list is rejected with the
"no data found" failure and no store mutation. -/
theorem c8_normalize_exhaustive :
    (∀ xs, normalizePayload (Json.arr xs) = xs) ∧
    (∀ fields, normalizePayload (Json.obj fields) = [Json.obj fields]) ∧
    (normalizePayload Json.null = [] ∧ (∀ b, normalizePayload (Json.bool b) = []) ∧
      (∀ n, normalizePayload (Json.num n) = []) ∧
      (∀ st, normalizePayload (Json.str st) = [])) ∧
    (∀ (parse : String → Option Json) (now clipboardText : String) (s : Store) (j : Json),
      clipboardText ≠ "" → parse clipboardText = some j → normalizePayload j = [] →
      handleSyncVideos parse now clipboardText s =
        ({ success := false, error := some "No video data found in clipboard.",
           needsManualPaste := some true }, s)) := by
  refine ⟨fun xs => rfl, fun fields => rfl,
    ⟨rfl, fun b => rfl, fun n => rfl, fun st => rfl⟩, ?_⟩
  intro parse now clipboardText s j ht hp hn
  simp [handleSyncVideos, ht, hp, hn]

/-- Witness for C8: a string payload normalizes to the empty list and is
rejected with the "no data found" failure, store untouched. -/
theorem c8_normalize_exhaustive_witness :
    handleSyncVideos (fun _ => some (Json.str "oops")) "2024-01-01T00:00:00.000Z"
        "payload" [] =
      ({ success := false, error := some "No video data found in clipboard.",
         needsManualPaste := some true }, []) :=
  c8_normalize_exhaustive.2.2.2 (fun _ => some (Json.str "oops"))
    "2024-01-01T00:00:00.000Z" "payload" [] (Json.str "oops") (by decide) rfl rfl

/-- C10: every failure response of the syncVideos handler carries
needsManualPaste:true, including the response built by the top-level
catch for unexpected thrown errors. -/
theorem c10_sync_failures_carry_manual_paste_flag :
    (∀ (parse : String → Option Json) (now clipboardText : String) (s : Store),
      (handleSyncVideos parse now clipboardText s).1.success = false →
      (handleSyncVideos parse now clipboardText s).1.needsManualPaste = some true) ∧
    (∀ msg, (syncCatchResponse msg).success = false ∧
      (syncCatchResponse msg).needsManualPaste = some true) := by
  refine ⟨?_, fun msg => ⟨rfl, rfl⟩⟩
  intro parse now clipboardText s h
  by_cases ht : clipboardText = ""
  · simp [handleSyncVideos, ht]
  · cases hp : parse clipboardText with
    | none => simp [handleSyncVideos, ht, hp]
    | some j =>
        cases hn : (normalizePayload j).isEmpty with
        | true => simp [handleSyncVideos, ht, hp, hn]
        | false => simp [handleSyncVideos, ht, hp, hn] at h

/-- Witness for C10 at a concrete failing run (invalid JSON). -/
theorem c10_sync_failures_carry_manual_paste_flag_witness :
    (handleSyncVideos (fun _ => none) "T" "not json" []).1.success = false ∧
    (handleSyncVideos (fun _ => none) "T" "not json" []).1.needsManualPaste = some true :=
  ⟨rfl, c10_sync_failures_carry_manual_paste_flag.1 (fun _ => none) "T" "not json" [] rfl⟩

/-- C9: the getVideoInfo and getVideoByUrl handlers are behaviorally
identical - both look up by url through `dbService.getVideoByUrl` and
answer {success:true, video} on success and {success:false, error} on a
thrown storage failure. -/
theorem c9_getVideoInfo_getVideoByUrl_identical :
    (∀ (db : String → Except String (Option JsObj)) (url : String),
      handleGetVideoInfo db url = handleGetVideoByUrl db url) ∧
    (∀ (db : String → Except String (Option JsObj)) (url : String) (v : Option JsObj),
      db url = Except.ok v →
      handleGetVideoInfo db url = { success := true, video := some v } ∧
      handleGetVideoByUrl db url = { success := true, video := some v }) ∧
    (∀ (db : String → Except String (Option JsObj)) (url : String) (e : String),
      db url = Except.error e →
      handleGetVideoInfo db url = { success := false, error := some e } ∧
      handleGetVideoByUrl db url = { success := false, error := some e }) := by
  refine ⟨?_, ?_, ?_⟩
  · intro db url
    unfold handleGetVideoInfo handleGetVideoByUrl
    rfl
  · intro db url v h
    constructor <;> simp [handleGetVideoInfo, handleGetVideoByUrl, h]
  · intro db url e h
    constructor <;> simp [handleGetVideoInfo, handleGetVideoByUrl, h]

/-- Witness for C9 at a concrete successful lookup and a concrete thrown
storage failure. -/
theorem c9_getVideoInfo_getVideoByUrl_identical_witness :
    handleGetVideoInfo (fun _ => Except.ok none) "https://x/v1" =
      { success := true, video := some none } ∧
    handleGetVideoByUrl (fun _ => Except.error "boom") "https://x/v1" =
      { success := false, error := some "boom" } :=
  ⟨(c9_getVideoInfo_getVideoByUrl_identical.2.1 (fun _ => Except.ok none)
      "https://x/v1" none rfl).1,
   (c9_getVideoInfo_getVideoByUrl_identical.2.2 (fun _ => Except.error "boom")
      "https://x/v1" "boom" rfl).2⟩

/-- C1 counterexample: on a request from a mismatched sender the
background context does not respond at all (the listener returns without
calling sendResponse), contradicting the claim that every receiving
context answers with the Unauthorized response; the store is unchanged. -/
theorem c1_background_unauthorized_counterexample :
    (backgroundOnMessage "extension-id" (fun _ => none) "T" "" (fun _ => "")
        "attacker-id" { action := "saveVideo" } []).1 = none ∧
    (backgroundOnMessage "extension-id" (fun _ => none) "T" "" (fun _ => "")
        "attacker-id" { action := "saveVideo" } []).2.1 = ([] : Store) ∧
    ¬ (backgroundOnMessage "extension-id" (fun _ => none) "T" "" (fun _ => "")
        "attacker-id" { action := "saveVideo" } []).1 =
      some { success := false, error := some "Unauthorized sender" } := by
  refine ⟨rfl, rfl, fun h => ?_⟩
  exact Option.noConfusion h

/-- C1 amended: a mismatched sender is never serviced and the store is
unchanged in both contexts; the content-script context answers
{success:false, error:"Unauthorized sender"}, while the background
context sends no response at all. -/
theorem c1_unauthorized_sender_not_serviced
    (extensionId senderId : String) (h : senderId ≠ extensionId)
    (parse : String → Option Json) (now clipboardText : String)
    (enc : JsVal → String) (req : Request) (s : Store)
    (clip : Except String String) :
    backgroundOnMessage extensionId parse now clipboardText enc senderId req s =
      (none, s, none) ∧
    contentOnMessage extensionId clip senderId req =
      some { success := false, error := some "Unauthorized sender" } := by
  constructor
  · simp [backgroundOnMessage, h]
  · simp [contentOnMessage, h]

/-- Witness for the amended C1 at concrete mismatched identities. -/
theorem c1_unauthorized_sender_not_serviced_witness :
    backgroundOnMessage "extension-id" (fun _ => none) "T" "" (fun _ => "")
        "attacker-id" { action := "getAllVideos" } [] = (none, [], none) ∧
    contentOnMessage "extension-id" (Except.ok "") "attacker-id"
        { action := "getAllVideos" } =
      some { success := false, error := some "Unauthorized sender" } :=
  c1_unauthorized_sender_not_serviced "extension-id" "attacker-id" (by decide)
    (fun _ => none) "T" "" (fun _ => "") { action := "getAllVideos" } []
    (Except.ok "")

/-- C2 counterexample: a record stored with saved_at
"2020-01-01T00:00:00.000Z" is re-synced from a descriptor whose
date_added is "2021-05-05T00:00:00.000Z"; the upsert overwrites saved_at
with the descriptor's date_added, so saved_at is not immutable. -/
theorem c2_savedAt_overwritten_counterexample :
    (getVideo
        (handleSyncVideos
          (fun _ => some (Json.arr [Json.obj
            [("id", Json.str "a"),
             ("date_added", Json.str "2021-05-05T00:00:00.000Z")]]))
          "2024-01-01T00:00:00.000Z" "payload"
          [("a", [("id", some (Json.str "a")),
                  ("saved_at", some (Json.str "2020-01-01T00:00:00.000Z"))])]).2
        "a").map (fun r => getFieldV r "saved_at") =
      some (some (Json.str "2021-05-05T00:00:00.000Z")) ∧
    ¬ (some (Json.str "2021-05-05T00:00:00.000Z") : JsVal) =
      some (Json.str "2020-01-01T00:00:00.000Z") := by
  constructor
  · rfl
  · intro h
    exact absurd (Json.str.inj (Option.some.inj h)) (by decide)

/-- C2 amended: saved_at is not immutable - each per-descriptor sync
upsert replaces the stored record wholesale and sets its saved_at to the
descriptor's own date_added, regardless of the previously stored value;
it is preserved only when the descriptor carries the same date_added. -/
theorem c2_sync_sets_savedAt_from_descriptor
    (now : String) (acc : Store × Nat × Nat) (pv : Json) (k : String)
    (h : descriptorKey pv = some k) :
    (getVideo (syncStep now acc pv).1 k).map (fun r => getFieldV r "saved_at") =
      some (getFieldJ pv "date_added") := by
  rw [syncStep_store_key_some now acc pv k h, getVideo_putVideo_self]
  simp [getFieldV_convert_saved_at]

/-- Witness for the amended C2 at a concrete descriptor. -/
theorem c2_sync_sets_savedAt_from_descriptor_witness :
    (getVideo (syncStep "2024-01-01T00:00:00.000Z" (([], 0, 0) : Store × Nat × Nat)
        (Json.obj [("id", Json.str "a"),
          ("date_added", Json.str "2021-05-05T00:00:00.000Z")])).1
      "a").map (fun r => getFieldV r "saved_at") =
      some (some (Json.str "2021-05-05T00:00:00.000Z")) :=
  (c2_sync_sets_savedAt_from_descriptor "2024-01-01T00:00:00.000Z" ([], 0, 0)
    (Json.obj [("id", Json.str "a"),
      ("date_added", Json.str "2021-05-05T00:00:00.000Z")]) "a" rfl).trans rfl

/-- C7 counterexample: a record stored with is_new "No" is re-synced from
a descriptor carrying is_new "Yes"; the upsert writes "Yes" back, so the
core does re-promote No to Yes. -/
theorem c7_isNew_repromotion_counterexample :
    (getVideo
        (handleSyncVideos
          (fun _ => some (Json.arr [Json.obj
            [("id", Json.str "a"), ("is_new", Json.str "Yes")]]))
          "2024-02-02T00:00:00.000Z" "payload"
          [("a", [("id", some (Json.str "a")),
                  ("is_new", some (Json.str "No"))])]).2
        "a").map (fun r => getFieldV r "is_new") =
      some (some (Json.str "Yes")) ∧
    ¬ (some (Json.str "Yes") : JsVal) = some (Json.str "No") := by
  constructor
  · rfl
  · intro h
    exact absurd (Json.str.inj (Option.some.inj h)) (by decide)

/-- C7 amended: the core enforces no one-way lifecycle on isNew - every
sync upsert writes the descriptor's is_new verbatim over the stored
value, so a stored "No" becomes "Yes" exactly when the input says so. -/
theorem c7_sync_writes_isNew_verbatim
    (now : String) (acc : Store × Nat × Nat) (pv : Json) (k : String)
    (h : descriptorKey pv = some k) :
    (getVideo (syncStep now acc pv).1 k).map (fun r => getFieldV r "is_new") =
      some (getFieldJ pv "is_new") := by
  rw [syncStep_store_key_some now acc pv k h, getVideo_putVideo_self]
  simp [getFieldV_convert_is_new]

/-- Witness for the amended C7 at a concrete descriptor. -/
theorem c7_sync_writes_isNew_verbatim_witness :
    (getVideo (syncStep "2024-02-02T00:00:00.000Z" (([], 0, 0) : Store × Nat × Nat)
        (Json.obj [("id", Json.str "a"), ("is_new", Json.str "Yes")])).1
      "a").map (fun r => getFieldV r "is_new") =
      some (some (Json.str "Yes")) :=
  (c7_sync_writes_isNew_verbatim "2024-02-02T00:00:00.000Z" ([], 0, 0)
    (Json.obj [("id", Json.str "a"), ("is_new", Json.str "Yes")]) "a" rfl).trans rfl

/-- C3: the sync reconciliation is idempotent - replaying the same
payload text leaves the catalog state unaltered (at an equal clock
reading), and the second run (at any clock reading) reports
videosAdded = 0 and videosUpdated = the number of descriptors with
usable ids. -/
theorem c3_sync_idempotent
    (parse : String → Option Json) (now now2 clipboardText : String)
    (s0 : Store) (parsed : Json)
    (ht : clipboardText ≠ "") (hp : parse clipboardText = some parsed)
    (hl : normalizePayload parsed ≠ [])
    (hnd : (storeKeys s0).Nodup) :
    (handleSyncVideos parse now clipboardText
        (handleSyncVideos parse now clipboardText s0).2).2 =
      (handleSyncVideos parse now clipboardText s0).2 ∧
    (handleSyncVideos parse now2 clipboardText
        (handleSyncVideos parse now clipboardText s0).2).1.videosAdded = some 0 ∧
    (handleSyncVideos parse now2 clipboardText
        (handleSyncVideos parse now clipboardText s0).2).1.videosUpdated =
      some (countValid (normalizePayload parsed)) := by
  have hli : (normalizePayload parsed).isEmpty = false := by
    cases hc : normalizePayload parsed with
    | nil => exact absurd hc hl
    | cons a t => rfl
  have hstore : ∀ (nw : String) (s : Store),
      (handleSyncVideos parse nw clipboardText s).2 =
        (runSync nw (normalizePayload parsed) (s, 0, 0)).1 := by
    intro nw s
    simp [handleSyncVideos, ht, hp, hli, runSync]
  have hadded : ∀ (nw : String) (s : Store),
      (handleSyncVideos parse nw clipboardText s).1.videosAdded =
        some (runSync nw (normalizePayload parsed) (s, 0, 0)).2.1 := by
    intro nw s
    simp [handleSyncVideos, ht, hp, hli, runSync]
  have hupdated : ∀ (nw : String) (s : Store),
      (handleSyncVideos parse nw clipboardText s).1.videosUpdated =
        some (runSync nw (normalizePayload parsed) (s, 0, 0)).2.2 := by
    intro nw s
    simp [handleSyncVideos, ht, hp, hli, runSync]
  have hall : ∀ pv ∈ normalizePayload parsed, ∀ k, descriptorKey pv = some k →
      k ∈ storeKeys (handleSyncVideos parse now clipboardText s0).2 := by
    intro pv hm k hk
    rw [hstore now s0]
    exact key_mem_runSync now (normalizePayload parsed) (s0, 0, 0) pv k hm hk
  refine ⟨?_, ?_, ?_⟩
  · rw [hstore now (handleSyncVideos parse now clipboardText s0).2, hstore now s0]
    have hnd1 : (storeKeys (runSync now (normalizePayload parsed) (s0, 0, 0)).1).Nodup :=
      nodup_storeKeys_runSync now (normalizePayload parsed) (s0, 0, 0) hnd
    have hall1 : ∀ pv ∈ normalizePayload parsed, ∀ k, descriptorKey pv = some k →
        k ∈ storeKeys (runSync now (normalizePayload parsed) (s0, 0, 0)).1 :=
      fun pv hm k hk => key_mem_runSync now (normalizePayload parsed) (s0, 0, 0) pv k hm hk
    refine store_eq_of_keys_and_lookup _ _ ?_ ?_ ?_
    · exact nodup_storeKeys_runSync now (normalizePayload parsed) _ hnd1
    · exact storeKeys_runSync_all_mem now (normalizePayload parsed) _ hall1
    · intro k
      rw [getVideo_runSync now (normalizePayload parsed)
        ((runSync now (normalizePayload parsed) (s0, 0, 0)).1, 0, 0) k]
      cases hld : lastDescFor (normalizePayload parsed) k with
      | none => rfl
      | some pv =>
          rw [getVideo_runSync now (normalizePayload parsed) (s0, 0, 0) k, hld]
  · rw [hadded now2 (handleSyncVideos parse now clipboardText s0).2]
    rw [runSync_counts_all_mem now2 (normalizePayload parsed)
      ((handleSyncVideos parse now clipboardText s0).2, 0, 0) hall]
  · rw [hupdated now2 (handleSyncVideos parse now clipboardText s0).2]
    rw [runSync_counts_all_mem now2 (normalizePayload parsed)
      ((handleSyncVideos parse now clipboardText s0).2, 0, 0) hall]
    simp

/-- Witness for C3: replaying a two-descriptor payload on the empty
store leaves the state unchanged and reports 0 added / 2 updated. -/
theorem c3_sync_idempotent_witness :
    (handleSyncVideos
        (fun _ => some (Json.arr [Json.obj [("id", Json.str "a")],
          Json.obj [("id", Json.str "b")]])) "T1" "payload"
        (handleSyncVideos
          (fun _ => some (Json.arr [Json.obj [("id", Json.str "a")],
            Json.obj [("id", Json.str "b")]])) "T1" "payload" []).2).2 =
      (handleSyncVideos
        (fun _ => some (Json.arr [Json.obj [("id", Json.str "a")],
          Json.obj [("id", Json.str "b")]])) "T1" "payload" []).2 ∧
    (handleSyncVideos
        (fun _ => some (Json.arr [Json.obj [("id", Json.str "a")],
          Json.obj [("id", Json.str "b")]])) "T2" "payload"
        (handleSyncVideos
          (fun _ => some (Json.arr [Json.obj [("id", Json.str "a")],
            Json.obj [("id", Json.str "b")]])) "T1" "payload" []).2).1.videosAdded =
      some 0 ∧
    (handleSyncVideos
        (fun _ => some (Json.arr [Json.obj [("id", Json.str "a")],
          Json.obj [("id", Json.str "b")]])) "T2" "payload"
        (handleSyncVideos
          (fun _ => some (Json.arr [Json.obj [("id", Json.str "a")],
            Json.obj [("id", Json.str "b")]])) "T1" "payload" []).2).1.videosUpdated =
      some 2 := by
  have h := c3_sync_idempotent
    (fun _ => some (Json.arr [Json.obj [("id", Json.str "a")],
      Json.obj [("id", Json.str "b")]])) "T1" "T2" "payload" []
    (Json.arr [Json.obj [("id", Json.str "a")], Json.obj [("id", Json.str "b")]])
    (by decide) rfl (by simp [normalizePayload]) (by simp [storeKeys])
  exact ⟨h.1, h.2.1, h.2.2.trans rfl⟩

/-- C4: partial-failure tolerance - with three descriptors of which the
middle one has no id, reconciliation still succeeds, the counts sum to
two, and the first and third descriptors are present in the store. -/
theorem c4_sync_partial_failure_tolerance
    (parse : String → Option Json) (now clipboardText : String) (s : Store)
    (d1 d2 d3 : Json) (k1 k3 : String)
    (ht : clipboardText ≠ "")
    (hp : parse clipboardText = some (Json.arr [d1, d2, d3]))
    (h1 : descriptorKey d1 = some k1)
    (h2 : getFieldJ d2 "id" = none)
    (h3 : descriptorKey d3 = some k3)
    (hk : k1 ≠ k3) :
    (handleSyncVideos parse now clipboardText s).1.success = true ∧
    (handleSyncVideos parse now clipboardText s).1.videosAdded.getD 0 +
      (handleSyncVideos parse now clipboardText s).1.videosUpdated.getD 0 = 2 ∧
    getVideo (handleSyncVideos parse now clipboardText s).2 k1 =
      some (convertPlayVideo now d1) ∧
    getVideo (handleSyncVideos parse now clipboardText s).2 k3 =
      some (convertPlayVideo now d3) := by
  have h2' : descriptorKey d2 = none := by
    unfold descriptorKey; rw [h2]
  have hsucc : (handleSyncVideos parse now clipboardText s).1.success = true := by
    simp [handleSyncVideos, ht, hp, normalizePayload]
  have hsum : (handleSyncVideos parse now clipboardText s).1.videosAdded.getD 0 +
      (handleSyncVideos parse now clipboardText s).1.videosUpdated.getD 0 =
      (List.foldl (syncStep now) (s, 0, 0) [d1, d2, d3]).2.1 +
      (List.foldl (syncStep now) (s, 0, 0) [d1, d2, d3]).2.2 := by
    simp [handleSyncVideos, ht, hp, normalizePayload]
  have hst : (handleSyncVideos parse now clipboardText s).2 =
      (List.foldl (syncStep now) (s, 0, 0) [d1, d2, d3]).1 := by
    simp [handleSyncVideos, ht, hp, normalizePayload]
  have hf : List.foldl (syncStep now) (s, 0, 0) [d1, d2, d3] =
      syncStep now (syncStep now (syncStep now (s, 0, 0) d1) d2) d3 := rfl
  obtain ⟨hs1, ht1⟩ := syncStep_total_key_some now (s, 0, 0) d1 k1 h1
  have hmid : syncStep now (syncStep now (s, 0, 0) d1) d2 =
      syncStep now (s, 0, 0) d1 := syncStep_key_none now _ d2 h2'
  obtain ⟨hs3, ht3⟩ :=
    syncStep_total_key_some now (syncStep now (s, 0, 0) d1) d3 k3 h3
  have hstore3 : (List.foldl (syncStep now) (s, 0, 0) [d1, d2, d3]).1 =
      putVideo (putVideo s k1 (convertPlayVideo now d1)) k3
        (convertPlayVideo now d3) := by
    rw [hf, hmid, hs3, hs1]
  have ht1' : (syncStep now (s, 0, 0) d1).2.1 + (syncStep now (s, 0, 0) d1).2.2 = 1 := by
    rw [ht1]; rfl
  refine ⟨hsucc, ?_, ?_, ?_⟩
  · rw [hsum, hf, hmid]
    omega
  · rw [hst, hstore3, getVideo_putVideo_ne _ _ _ _ hk, getVideo_putVideo_self]
  · rw [hst, hstore3, getVideo_putVideo_self]

/-- Witness for C4 at a concrete three-descriptor payload whose middle
descriptor lacks an id, on the empty store. -/
theorem c4_sync_partial_failure_tolerance_witness :
    (handleSyncVideos
        (fun _ => some (Json.arr
          [Json.obj [("id", Json.str "a"), ("title", Json.str "A")],
           Json.obj [("title", Json.str "B")],
           Json.obj [("id", Json.str "c"), ("title", Json.str "C")]]))
        "T" "payload" []).1.success = true ∧
    (handleSyncVideos
        (fun _ => some (Json.arr
          [Json.obj [("id", Json.str "a"), ("title", Json.str "A")],
           Json.obj [("title", Json.str "B")],
           Json.obj [("id", Json.str "c"), ("title", Json.str "C")]]))
        "T" "payload" []).1.videosAdded.getD 0 +
      (handleSyncVideos
        (fun _ => some (Json.arr
          [Json.obj [("id", Json.str "a"), ("title", Json.str "A")],
           Json.obj [("title", Json.str "B")],
           Json.obj [("id", Json.str "c"), ("title", Json.str "C")]]))
        "T" "payload" []).1.videosUpdated.getD 0 = 2 ∧
    getVideo (handleSyncVideos
        (fun _ => some (Json.arr
          [Json.obj [("id", Json.str "a"), ("title", Json.str "A")],
           Json.obj [("title", Json.str "B")],
           Json.obj [("id", Json.str "c"), ("title", Json.str "C")]]))
        "T" "payload" []).2 "a" =
      some (convertPlayVideo "T" (Json.obj [("id", Json.str "a"), ("title", Json.str "A")])) ∧
    getVideo (handleSyncVideos
        (fun _ => some (Json.arr
          [Json.obj [("id", Json.str "a"), ("title", Json.str "A")],
           Json.obj [("title", Json.str "B")],
           Json.obj [("id", Json.str "c"), ("title", Json.str "C")]]))
        "T" "payload" []).2 "c" =
      some (convertPlayVideo "T" (Json.obj [("id", Json.str "c"), ("title", Json.str "C")])) :=
  c4_sync_partial_failure_tolerance
    (fun _ => some (Json.arr
      [Json.obj [("id", Json.str "a"), ("title", Json.str "A")],
       Json.obj [("title", Json.str "B")],
       Json.obj [("id", Json.str "c"), ("title", Json.str "C")]]))
    "T" "payload" []
    (Json.obj [("id", Json.str "a"), ("title", Json.str "A")])
    (Json.obj [("title", Json.str "B")])
    (Json.obj [("id", Json.str "c"), ("title", Json.str "C")])
    "a" "c" (by decide) rfl rfl rfl rfl (by decide)

/-- C6: the saveVideo handler disambiguates by payload shape - a payload
with truthy url and id is written straight to the catalog and answered
with "Video saved to database"; a payload missing either field opens the
Play side channel and is then persisted with freshly stamped savedAt and
lastSyncedAt; a thrown store failure yields success:false with an error
and leaves the store untouched. -/
theorem c6_saveVideo_disambiguation
    (enc : JsVal → String) (now : String) (vi : JsObj) (s : Store) :
    (∀ k, truthy (getFieldV vi "url") = true →
      getFieldV vi "id" = some (Json.str k) →
      truthy (getFieldV vi "id") = true →
      handleSaveVideo enc now vi s =
        ({ success := true, message := some "Video saved to database" },
         putVideo s k vi, none)) ∧
    ((truthy (getFieldV vi "url") && truthy (getFieldV vi "id")) = false →
      (handleSaveVideo enc now vi s).2.2 =
        some ("play://add?url=" ++ enc (getFieldV vi "url")) ∧
      (∀ k, getFieldV vi "id" = some (Json.str k) →
        (handleSaveVideo enc now vi s).1 =
          { success := true, message := some "Video saved to Play" } ∧
        (getVideo (handleSaveVideo enc now vi s).2.1 k).map
          (fun r => getFieldV r "savedAt") = some (some (Json.str now)) ∧
        (getVideo (handleSaveVideo enc now vi s).2.1 k).map
          (fun r => getFieldV r "lastSyncedAt") = some (some (Json.str now)))) ∧
    ((∀ k, ¬ getFieldV vi "id" = some (Json.str k)) →
      (handleSaveVideo enc now vi s).1.success = false ∧
      (handleSaveVideo enc now vi s).1.error.isSome = true ∧
      (handleSaveVideo enc now vi s).2.1 = s) := by
  refine ⟨?_, ?_, ?_⟩
  · intro k hu hid htr
    have htr' : truthy (some (Json.str k)) = true := by rw [← hid]; exact htr
    simp [handleSaveVideo, hu, htr', dbAddVideo, hid]
  · intro hfalse
    constructor
    · simp only [handleSaveVideo, hfalse, Bool.false_eq_true, if_false]
      split <;> rfl
    · intro k hid
      have hidst : getFieldV
          (setField (setField vi "savedAt" (some (Json.str now)))
            "lastSyncedAt" (some (Json.str now))) "id" = some (Json.str k) := by
        rw [getFieldV_setField_ne _ _ _ _ (by decide : ("id" : String) ≠ "lastSyncedAt"),
          getFieldV_setField_ne _ _ _ _ (by decide : ("id" : String) ≠ "savedAt"), hid]
      have hsv : getFieldV
          (setField (setField vi "savedAt" (some (Json.str now)))
            "lastSyncedAt" (some (Json.str now))) "savedAt" = some (Json.str now) := by
        rw [getFieldV_setField_ne _ _ _ _
          (by decide : ("savedAt" : String) ≠ "lastSyncedAt"), getFieldV_setField_self]
      have hls : getFieldV
          (setField (setField vi "savedAt" (some (Json.str now)))
            "lastSyncedAt" (some (Json.str now))) "lastSyncedAt" = some (Json.str now) :=
        getFieldV_setField_self _ _ _
      have hsave : handleSaveVideo enc now vi s =
          ({ success := true, message := some "Video saved to Play" },
           putVideo s k
             (setField (setField vi "savedAt" (some (Json.str now)))
               "lastSyncedAt" (some (Json.str now))),
           some ("play://add?url=" ++ enc (getFieldV vi "url"))) := by
        simp [handleSaveVideo, hfalse, dbAddVideo, hidst]
      refine ⟨by rw [hsave], ?_, ?_⟩
      · rw [hsave]
        simp [getVideo_putVideo_self, hsv]
      · rw [hsave]
        simp [getVideo_putVideo_self, hls]
  · intro hnotid
    have haddvi : dbAddVideo s vi =
        Except.error "Data provided to an operation does not meet requirements" := by
      unfold dbAddVideo
      cases hiv : getFieldV vi "id" with
      | none => rfl
      | some j =>
          cases j with
          | str st => exact absurd hiv (hnotid st)
          | null => rfl
          | bool b => rfl
          | num n => rfl
          | arr xs => rfl
          | obj fs => rfl
    have hidst : getFieldV
        (setField (setField vi "savedAt" (some (Json.str now)))
          "lastSyncedAt" (some (Json.str now))) "id" = getFieldV vi "id" := by
      rw [getFieldV_setField_ne _ _ _ _ (by decide : ("id" : String) ≠ "lastSyncedAt"),
        getFieldV_setField_ne _ _ _ _ (by decide : ("id" : String) ≠ "savedAt")]
    have haddst : dbAddVideo s
        (setField (setField vi "savedAt" (some (Json.str now)))
          "lastSyncedAt" (some (Json.str now))) =
        Except.error "Data provided to an operation does not meet requirements" := by
      unfold dbAddVideo
      rw [hidst]
      cases hiv : getFieldV vi "id" with
      | none => rfl
      | some j =>
          cases j with
          | str st => exact absurd hiv (hnotid st)
          | null => rfl
          | bool b => rfl
          | num n => rfl
          | arr xs => rfl
          | obj fs => rfl
    by_cases hcond : (truthy (getFieldV vi "url") && truthy (getFieldV vi "id")) = true
    · refine ⟨?_, ?_, ?_⟩ <;> simp [handleSaveVideo, hcond, haddvi]
    · have hcond' : (truthy (getFieldV vi "url") && truthy (getFieldV vi "id")) = false := by
        revert hcond
        cases truthy (getFieldV vi "url") && truthy (getFieldV vi "id") <;> simp
      refine ⟨?_, ?_, ?_⟩ <;> simp [handleSaveVideo, hcond', haddst]

/-- Witness for C6: a direct save with url and id, a handoff save with a
missing url (side channel opened, record stamped and stored), and a save
whose record has no usable id (failure, store unchanged). -/
theorem c6_saveVideo_disambiguation_witness :
    handleSaveVideo (fun _ => "E") "2024-01-01T00:00:00.000Z"
        [("id", some (Json.str "v1")), ("url", some (Json.str "https://x/v1")),
         ("title", some (Json.str "T"))] [] =
      ({ success := true, message := some "Video saved to database" },
       putVideo [] "v1"
         [("id", some (Json.str "v1")), ("url", some (Json.str "https://x/v1")),
          ("title", some (Json.str "T"))], none) ∧
    (handleSaveVideo (fun _ => "E") "2024-01-01T00:00:00.000Z"
        [("id", some (Json.str "v2"))] []).2.2 = some "play://add?url=E" ∧
    (handleSaveVideo (fun _ => "E") "2024-01-01T00:00:00.000Z"
        [("id", some (Json.str "v2"))] []).1 =
      { success := true, message := some "Video saved to Play" } ∧
    (handleSaveVideo (fun _ => "E") "2024-01-01T00:00:00.000Z"
        ([] : JsObj) []).1.success = false := by
  refine ⟨?_, ?_, ?_, ?_⟩
  · exact (c6_saveVideo_disambiguation (fun _ => "E") "2024-01-01T00:00:00.000Z"
      [("id", some (Json.str "v1")), ("url", some (Json.str "https://x/v1")),
       ("title", some (Json.str "T"))] []).1 "v1" rfl rfl rfl
  · exact (((c6_saveVideo_disambiguation (fun _ => "E") "2024-01-01T00:00:00.000Z"
      [("id", some (Json.str "v2"))] []).2.1 rfl).1).trans rfl
  · exact (((c6_saveVideo_disambiguation (fun _ => "E") "2024-01-01T00:00:00.000Z"
      [("id", some (Json.str "v2"))] []).2.1 rfl).2 "v2" rfl).1
  · exact ((c6_saveVideo_disambiguation (fun _ => "E") "2024-01-01T00:00:00.000Z"
      ([] : JsObj) []).2.2 (fun k h => Option.noConfusion h)).1
